import Mathlib

/-!
Shallow embedding of the EZProxy audit-log parser (ezproxyvisualiser.py).

Conventions of the embedding:
* Text is modelled as `String` / `List Char`, with '\n' as the line separator
  (Python's `re.MULTILINE` anchor `^` likewise only recognises '\n').
* Python's whitespace class (for `str.strip`, `str.splitlines`-adjacent trimming
  and the regex classes `\s` / `\S`) is modelled by `pySpace` (the six ASCII
  whitespace characters).
* Each row regex of the source is anchored and built from `\S+` / `\d+` /
  `\d+\.\d+` fields separated by `\s+` (plus trailing `.*` fields); on a
  stripped line such a regex matches exactly when the whitespace-separated
  tokens of the line have the corresponding shapes, which is how the matchers
  below are written.  Trailing `.*` fields capture the rest of the line after
  the maximal whitespace run following the previous field.
* `pandas.DataFrame` columns of matched rows are represented by per-shape
  record structures; the post-match numeric conversions (`astype(int)`,
  `to_numeric`) are folded into the record fields (`Nat` for `\d+` fields,
  `ℚ` for `\d+\.\d+` fields - the regex guarantees the conversion succeeds).
* A Python `dict` is an insertion-ordered association list: assignment to an
  existing key updates it in place, a new key is appended.
-/

/-- The characters of Python's ASCII whitespace class (`str.strip`, `\s`). -/
def pySpace (c : Char) : Bool :=
  c = ' ' || c = '\t' || c = '\n' || c = '\r' || c = '\x0b' || c = '\x0c'

/-- Python `str.strip()`: drop leading and trailing whitespace. -/
def pyStrip (cs : List Char) : List Char :=
  ((cs.dropWhile pySpace).reverse.dropWhile pySpace).reverse

/-- Split a character list at every '\n' (the line structure seen by
`re.MULTILINE` and, modulo empty lines which every parser skips, by
`str.splitlines`). -/
def pyLines : List Char → List (List Char)
  | [] => [[]]
  | c :: cs =>
    if c = '\n' then [] :: pyLines cs
    else
      match pyLines cs with
      | [] => [[c]]
      | l :: ls => (c :: l) :: ls

/-- Rejoin lines with '\n' (inverse of `pyLines`). -/
def joinLines : List (List Char) → List Char
  | [] => []
  | [l] => l
  | l :: ls => l ++ '\n' :: joinLines ls

/-- Maximal non-whitespace prefix and the remainder (one `\S+` token). -/
def takeTok : List Char → List Char × List Char
  | [] => ([], [])
  | c :: cs =>
    if pySpace c then ([], c :: cs)
    else
      let r := takeTok cs
      (c :: r.1, r.2)

/-- Match `\s+` at the front (at least one whitespace character, greedily all
of them) and return the rest; `none` if the first character is not whitespace. -/
def dropSpaces1 : List Char → Option (List Char)
  | [] => none
  | c :: cs => if pySpace c then some (cs.dropWhile pySpace) else none

/-- Helper for `splitWs`: `cur` is the (reversed) token being accumulated. -/
def splitWsAux (cur : List Char) : List Char → List (List Char)
  | [] => if cur.isEmpty then [] else [cur.reverse]
  | c :: cs =>
    if pySpace c then
      if cur.isEmpty then splitWsAux [] cs else cur.reverse :: splitWsAux [] cs
    else splitWsAux (c :: cur) cs

/-- The whitespace-separated tokens of a line (Python `line.split()`); this is
the token decomposition an anchored `\S+`-field regex sees. -/
def splitWs (cs : List Char) : List (List Char) :=
  splitWsAux [] cs

/-- Python substring containment (`needle in hay`). -/
def containsSub (needle hay : List Char) : Bool :=
  hay.tails.any fun t => needle.isPrefixOf t

/-- Python `str.lower()` (ASCII). -/
def lowerList (cs : List Char) : List Char :=
  cs.map Char.toLower

/-- Assemble a body line from whitespace-free tokens with single-space
separators (used to state properties about whole families of input lines). -/
def mkLine : List (List Char) → List Char
  | [] => []
  | [t] => t
  | t :: ts => t ++ ' ' :: mkLine ts

/-- A well-formed `\S+` token: non-empty and free of whitespace. -/
def isTok (cs : List Char) : Prop :=
  cs ≠ [] ∧ ∀ c ∈ cs, pySpace c = false

/-- Shape of a `\d+` field occupying a whole token. -/
def isDigitsTok (cs : List Char) : Bool :=
  !cs.isEmpty && cs.all Char.isDigit

/-- Shape of a `\d+\.\d+` field occupying a whole token. -/
def isFloatTok (cs : List Char) : Bool :=
  match cs.dropWhile Char.isDigit with
  | '.' :: rest => !(cs.takeWhile Char.isDigit).isEmpty && isDigitsTok rest
  | _ => false

/-- Numeric value of a digit string. -/
def digitsVal (cs : List Char) : Nat :=
  cs.foldl (fun n c => 10 * n + (c.toNat - 48)) 0

/-- Numeric value of a `\d+\.\d+` token (`pandas.to_numeric`), as a rational. -/
def floatVal (cs : List Char) : ℚ :=
  let a := cs.takeWhile Char.isDigit
  let b := (cs.dropWhile Char.isDigit).drop 1
  (digitsVal a : ℚ) + (digitsVal b : ℚ) / (10 : ℚ) ^ b.length

/-- Shape of a `\d{4}-\d{2}-\d{2}` field occupying a whole token. -/
def isDateTok (cs : List Char) : Bool :=
  match cs with
  | [a, b, c, d, e, f, g, h, i, j] =>
    a.isDigit && b.isDigit && c.isDigit && d.isDigit && e = '-' &&
    f.isDigit && g.isDigit && h = '-' && i.isDigit && j.isDigit
  | _ => false

/-- Shape of a `\d{2}:\d{2}:\d{2}` field occupying a whole token. -/
def isTimeTok (cs : List Char) : Bool :=
  match cs with
  | [a, b, c, d, e, f, g, h] =>
    a.isDigit && b.isDigit && c = ':' && d.isDigit && e.isDigit && f = ':' &&
    g.isDigit && h.isDigit
  | _ => false

/-- Row of the Logins table (all fields are left as text by the source). -/
structure LoginRec where
  login_date : String
  login_time : String
  logout_date : String
  logout_time : String
  username : String
  session : String
  ip : String
  geography : String
deriving DecidableEq

/-- Row of the LoginSummary table (after `astype(int)` on both counters). -/
structure LoginSummaryRec where
  username : String
  successful : Nat
  failures : Nat
deriving DecidableEq

/-- Row of the MultipleGeographies table (`count` stays text in the source). -/
structure MGRec where
  username : String
  count : String
  geographies : String
deriving DecidableEq

/-- Row of a ProviderAccess table (after `to_numeric` on kb/errors/total). -/
structure ProviderRec where
  provider : String
  kb : ℚ
  errors : Nat
  total : Nat
deriving DecidableEq

/-- Row of a KB-usage-by-user table (after `to_numeric` on kb). -/
structure KBRec where
  username : String
  kb : ℚ
deriving DecidableEq

/-- Row of the SPU summary table (after integer conversion of both counters). -/
structure SPURec where
  dns : String
  number_of_accesses : Nat
  unknown_599 : Nat
deriving DecidableEq

/-- Row regex of `parse_logins_table`:
`^(\d{4}-\d{2}-\d{2})\s+(\d{2}:\d{2}:\d{2})\s+(\S+)\s+(\S+)\s+(\S+)\s+(\S+)\s+(\S+)\s+(.*)$`. -/
def matchLogins (line : List Char) : Option LoginRec := do
  let p1 := takeTok line
  if isDateTok p1.1 then do
    let r1 ← dropSpaces1 p1.2
    let p2 := takeTok r1
    if isTimeTok p2.1 then do
      let r2 ← dropSpaces1 p2.2
      let p3 := takeTok r2
      if p3.1.isEmpty then none else do
      let r3 ← dropSpaces1 p3.2
      let p4 := takeTok r3
      if p4.1.isEmpty then none else do
      let r4 ← dropSpaces1 p4.2
      let p5 := takeTok r4
      if p5.1.isEmpty then none else do
      let r5 ← dropSpaces1 p5.2
      let p6 := takeTok r5
      if p6.1.isEmpty then none else do
      let r6 ← dropSpaces1 p6.2
      let p7 := takeTok r6
      if p7.1.isEmpty then none else do
      let r7 ← dropSpaces1 p7.2
      pure ⟨String.mk p1.1, String.mk p2.1, String.mk p3.1, String.mk p4.1,
            String.mk p5.1, String.mk p6.1, String.mk p7.1, String.mk r7⟩
    else none
  else none

/-- Row regex of `parse_login_summary_table`:
`^\s*(\S+)\s+(\d+)\s+(\d+)\s*$`, with the subsequent `astype(int)`. -/
def matchLoginSummary (line : List Char) : Option LoginSummaryRec :=
  match splitWs line with
  | [u, s, f] =>
    if isDigitsTok s && isDigitsTok f then
      some ⟨String.mk u, digitsVal s, digitsVal f⟩
    else none
  | _ => none

/-- Row regex of `parse_multiple_geographies_table`:
`^user\s+(\S+)\s+(\d+)\s+(.*)` (case-sensitive literal `user`; there is no
`re.IGNORECASE` on this pattern). -/
def matchMultipleGeographies (line : List Char) : Option MGRec := do
  if ("user").data.isPrefixOf line then do
    let r0 ← dropSpaces1 (line.drop 4)
    let p1 := takeTok r0
    if p1.1.isEmpty then none else do
    let r1 ← dropSpaces1 p1.2
    let p2 := takeTok r1
    if isDigitsTok p2.1 then do
      let r2 ← dropSpaces1 p2.2
      pure ⟨String.mk p1.1, String.mk p2.1, String.mk r2⟩
    else none
  else none

/-- Row regex of `parse_provider_access_table`:
`^(\S+)\s+(\d+\.\d+)\s+(\d+)\s+(\d+)$`, with the subsequent `to_numeric`. -/
def matchProvider (line : List Char) : Option ProviderRec :=
  match splitWs line with
  | [p, k, e, t] =>
    if isFloatTok k && isDigitsTok e && isDigitsTok t then
      some ⟨String.mk p, floatVal k, digitsVal e, digitsVal t⟩
    else none
  | _ => none

/-- Row regex of `parse_kb_usage_by_user`:
`^\s*(\S+)\s+(\d+\.\d+)\s*$`, with the subsequent `to_numeric`. -/
def matchKBUsage (line : List Char) : Option KBRec :=
  match splitWs line with
  | [u, k] =>
    if isFloatTok k then some ⟨String.mk u, floatVal k⟩ else none
  | _ => none

/-- Row regex of `parse_spu_summary_usage`:
`^\s*(\S+)\s+(\d+)\s+(\d+)\s*$`, with the subsequent integer conversion. -/
def matchSPU (line : List Char) : Option SPURec :=
  match splitWs line with
  | [d, n, u] =>
    if isDigitsTok n && isDigitsTok u then
      some ⟨String.mk d, digitsVal n, digitsVal u⟩
    else none
  | _ => none

/-- Skip predicate of `parse_logins_table`. -/
def skipLogins (line : List Char) : Bool :=
  ("Login Date").data.isPrefixOf line || containsSub ("Username").data line

/-- Skip predicate of `parse_login_summary_table`. -/
def skipLoginSummary (line : List Char) : Bool :=
  ("Username").data.isPrefixOf line || ("Login summary").data.isPrefixOf line

/-- Skip predicate of `parse_multiple_geographies_table`:
`line.lower().startswith("user ")`. -/
def skipMultipleGeographies (line : List Char) : Bool :=
  ("user ").data.isPrefixOf (lowerList line)

/-- Skip predicate of `parse_provider_access_table`. -/
def skipProvider (line : List Char) : Bool :=
  containsSub ("Content Provider").data line || containsSub ("Total KB").data line

/-- Skip predicate of `parse_kb_usage_by_user`. -/
def skipKBUsage (line : List Char) : Bool :=
  ("username").data.isPrefixOf (lowerList line) || containsSub ("Total KB").data line

/-- Skip predicate of `parse_spu_summary_usage` (lower-cased containment of
any of the three column-header markers; the emptiness test is redundant with
the blank-line skip of `_parse_table_with_regex`). -/
def skipSPU (line : List Char) : Bool :=
  line.isEmpty ||
  containsSub ("web site dns name").data (lowerList line) ||
  containsSub ("number of accesses").data (lowerList line) ||
  containsSub ("599/unknown accesses").data (lowerList line)

/-- The loop of `_parse_table_with_regex`: per line, strip; skip empty and
skip-predicate lines; otherwise emit the regex match (if any). -/
def parseTableLines (skip : List Char → Bool) (row : List Char → Option R)
    (body : List Char) : List R :=
  (pyLines body).filterMap fun l =>
    let s := pyStrip l
    if s.isEmpty then none else if skip s then none else row s

/-- `parse_logins_table` (the DataFrame as its list of rows). -/
def parse_logins_table (body : String) : List LoginRec :=
  parseTableLines skipLogins matchLogins body.data

/-- `parse_login_summary_table` (the DataFrame as its list of rows). -/
def parse_login_summary_table (body : String) : List LoginSummaryRec :=
  parseTableLines skipLoginSummary matchLoginSummary body.data

/-- `parse_multiple_geographies_table` (the DataFrame as its list of rows). -/
def parse_multiple_geographies_table (body : String) : List MGRec :=
  parseTableLines skipMultipleGeographies matchMultipleGeographies body.data

/-- `parse_provider_access_table` (the DataFrame as its list of rows). -/
def parse_provider_access_table (body : String) : List ProviderRec :=
  parseTableLines skipProvider matchProvider body.data

/-- `parse_kb_usage_by_user` (the DataFrame as its list of rows). -/
def parse_kb_usage_by_user (body : String) : List KBRec :=
  parseTableLines skipKBUsage matchKBUsage body.data

/-- The unsorted matched rows of `parse_spu_summary_usage`, in input order. -/
def spuRows (body : String) : List SPURec :=
  parseTableLines skipSPU matchSPU body.data

/-- Comparison used to embed
`df.sort_values("number_of_accesses", ascending=False, kind="mergesort")`:
a stable descending sort is by definition the sort of the position-indexed
rows by (access count descending, original position ascending). -/
def spuLE (a b : Nat × SPURec) : Bool :=
  decide (b.2.number_of_accesses < a.2.number_of_accesses) ||
  (decide (a.2.number_of_accesses = b.2.number_of_accesses) && decide (a.1 ≤ b.1))

/-- The position-indexed rows after the stable descending mergesort. -/
def spuSortedIdx (body : String) : List (Nat × SPURec) :=
  ((spuRows body).enum).mergeSort spuLE

/-- `parse_spu_summary_usage` (the DataFrame as its list of rows, after the
post-parse stable descending sort of the source). -/
def parse_spu_summary_usage (body : String) : List SPURec :=
  (spuSortedIdx body).map fun p => p.2

/-- One match of the section-header pattern of `split_into_sections` against
(the start of) a line, returning the matched text and the unmatched remainder
of the line.  The alternatives are tried in source order.  Note two source
facts embedded faithfully: (1) the pattern is `re.VERBOSE` and the space in
`Audit Report` is unescaped, hence ignored, so that alternative matches lines
starting with `AuditReport`; (2) the `No items found` alternative has no
trailing `.*`, so it matches only those 14 characters and the rest of the
line, if any, is left to the following content part. -/
def headerMatch (line : List Char) : Option (List Char × List Char) :=
  if ("AuditReport").data.isPrefixOf line then some (line, [])
  else if ("Report of all logins").data.isPrefixOf line then some (line, [])
  else if ("Login summary").data.isPrefixOf line then some (line, [])
  else if ("All successful logins").data.isPrefixOf line then some (line, [])
  else if ("Report of all content").data.isPrefixOf line then some (line, [])
  else if ("Report Total KB").data.isPrefixOf line then some (line, [])
  else if ("No items found").data.isPrefixOf line then
    some (("No items found").data, line.drop 14)
  else if ("SPU Summary").data.isPrefixOf line then some (line, [])
  else if ("SPU Statistics Summary").data.isPrefixOf line then some (line, [])
  else if ("Method Summary").data.isPrefixOf line then some (line, [])
  else none

/-- Collect (header, content-lines) chunks: `h` is the last header seen and
`acc` the reversed content lines gathered since (whose first entry is the
in-line remainder of the header match). -/
def sectionsAux (h : List Char) (acc : List (List Char)) :
    List (List Char) → List (List Char × List (List Char))
  | [] => [(h, acc.reverse)]
  | l :: ls =>
    match headerMatch l with
    | some hr => (h, acc.reverse) :: sectionsAux hr.1 [hr.2] ls
    | none => sectionsAux h (l :: acc) ls

/-- The alternating header/content decomposition produced by `re.split` with
the capturing header pattern: one (header text, content lines) pair per
header occurrence, in document order. -/
def headerContentPairs (lines : List (List Char)) :
    List (List Char × List (List Char)) :=
  match lines.dropWhile (fun l => (headerMatch l).isNone) with
  | [] => []
  | l :: ls =>
    match headerMatch l with
    | some hr => sectionsAux hr.1 [hr.2] ls
    | none => []

/-- The (trimmed header, trimmed body) pairs of a document, in order of
occurrence. -/
def sectionPairsStripped (raw : String) : List (List Char × List Char) :=
  (headerContentPairs (pyLines raw.data)).map fun p =>
    (pyStrip p.1, pyStrip (joinLines p.2))

/-- Python dict assignment `d[k] = v`: update the existing entry in place,
otherwise append a new one. -/
def dictInsert {K V : Type} [DecidableEq K] :
    List (K × V) → K → V → List (K × V)
  | [], k, v => [(k, v)]
  | p :: d, k, v => if p.1 = k then (k, v) :: d else p :: dictInsert d k v

/-- Python dict lookup `d[k]` (as an option). -/
def dictGet? {K V : Type} [DecidableEq K] : List (K × V) → K → Option V
  | [], _ => none
  | p :: d, k => if p.1 = k then some p.2 else dictGet? d k

/-- `split_into_sections`: the preamble entry (if its trimmed text is
non-empty) followed by one dict assignment per (header, body) pair. -/
def split_into_sections (raw : String) : List (List Char × List Char) :=
  let lines := pyLines raw.data
  let pre := pyStrip (joinLines (lines.takeWhile fun l => (headerMatch l).isNone))
  let d0 : List (List Char × List Char) :=
    if pre.isEmpty then [] else [(("(pre-file text)").data, pre)]
  (sectionPairsStripped raw).foldl (fun d p => dictInsert d p.1 p.2) d0

/-- A parsed DataFrame, tagged by its table shape. -/
inductive Df where
  | logins : List LoginRec → Df
  | loginSummary : List LoginSummaryRec → Df
  | multiGeo : List MGRec → Df
  | providerAccess : List ProviderRec → Df
  | kbUsage : List KBRec → Df
  | spu : List SPURec → Df
deriving DecidableEq

/-- `df.empty`. -/
def Df.isEmpty : Df → Bool
  | .logins r => r.isEmpty
  | .loginSummary r => r.isEmpty
  | .multiGeo r => r.isEmpty
  | .providerAccess r => r.isEmpty
  | .kbUsage r => r.isEmpty
  | .spu r => r.isEmpty

/-- The `parser_mapping` list of `main`: keyword, optional fixed dataset name
(`none` means "qualify the KBUsage_ prefix with the section header"), parser. -/
def parserMapping : List (List Char × Option String × (String → Df)) :=
  [(("report of all logins sorted by username").data, some "Logins",
      fun b => .logins (parse_logins_table b)),
   (("login summary sorted by username").data, some "LoginSummary",
      fun b => .loginSummary (parse_login_summary_table b)),
   (("all successful logins coming from multiple geographies").data,
      some "MultipleGeographies",
      fun b => .multiGeo (parse_multiple_geographies_table b)),
   (("report of all content provider accesses sorted by kb transferred").data,
      some "ProviderAccess_byKB",
      fun b => .providerAccess (parse_provider_access_table b)),
   (("report of all content provider accesses").data, some "ProviderAccess",
      fun b => .providerAccess (parse_provider_access_table b)),
   (("report total kb usage by user").data, none,
      fun b => .kbUsage (parse_kb_usage_by_user b)),
   (("spu summary sorted by usage").data, some "SPUSummary_byUsage",
      fun b => .spu (parse_spu_summary_usage b))]

/-- One iteration of the routing loop of `main`: find the first section whose
lower-cased header contains the keyword (the loop breaks there), parse its
body, and record the resulting DataFrame under its dataset name when it is
non-empty. -/
def applyRule (sections : List (List Char × List Char))
    (kw : List Char) (keyName : Option String) (pf : String → Df)
    (d : List (String × Df)) : List (String × Df) :=
  match sections.find? (fun s => containsSub kw (lowerList s.1)) with
  | none => d
  | some s =>
    let df := pf (String.mk s.2)
    if df.isEmpty then d
    else
      dictInsert d
        (match keyName with
         | some n => n
         | none => "KBUsage_" ++ String.mk s.1) df

/-- The `df_dict` construction of `main`: the routing rules are applied in
their fixed order, each against the section mapping. -/
def buildDatasets (sections : List (List Char × List Char)) :
    List (String × Df) :=
  parserMapping.foldl (fun d e => applyRule sections e.1 e.2.1 e.2.2 d) []

/-- The full core pipeline of `main`: split into sections, then route. -/
def pipeline (raw : String) : List (String × Df) :=
  buildDatasets (split_into_sections raw)

/-! ### Lemmas about characters, lines and tokens -/

theorem pySpace_eq_false_of_isDigit {c : Char} (h : c.isDigit = true) :
    pySpace c = false := by
  cases hx : pySpace c
  · rfl
  · exfalso
    have hx2 : c = ' ' ∨ c = '\t' ∨ c = '\n' ∨ c = '\r' ∨ c = '\x0b' ∨ c = '\x0c' := by
      simpa only [pySpace, Bool.or_eq_true, decide_eq_true_eq, or_assoc] using hx
    rcases hx2 with hx2 | hx2 | hx2 | hx2 | hx2 | hx2 <;> subst hx2 <;>
      exact absurd h (by decide)

theorem ne_newline_of_pySpace_eq_false {c : Char} (h : pySpace c = false) :
    c ≠ '\n' := by
  intro he
  subst he
  exact absurd h (by decide)

theorem isDigitsTok_chars {cs : List Char} (h : isDigitsTok cs = true) :
    ∀ c ∈ cs, pySpace c = false := by
  intro c hc
  simp only [isDigitsTok, Bool.and_eq_true, List.all_eq_true] at h
  exact pySpace_eq_false_of_isDigit (h.2 c hc)

theorem isDigitsTok_ne_nil {cs : List Char} (h : isDigitsTok cs = true) :
    cs ≠ [] := by
  intro he
  subst he
  exact absurd h (by decide)

theorem isFloatTok_chars {cs : List Char} (h : isFloatTok cs = true) :
    ∀ c ∈ cs, pySpace c = false := by
  intro c hc
  unfold isFloatTok at h
  split at h
  · rename_i rest heq
    rw [← List.takeWhile_append_dropWhile Char.isDigit cs, heq] at hc
    simp only [List.mem_append, List.mem_cons] at hc
    rcases hc with hc | hc | hc
    · exact pySpace_eq_false_of_isDigit (List.mem_takeWhile_imp hc)
    · subst hc; decide
    · simp only [isDigitsTok, Bool.and_eq_true, List.all_eq_true] at h
      exact pySpace_eq_false_of_isDigit (h.2.2 c hc)
  · exact absurd h (by simp)

theorem isFloatTok_ne_nil {cs : List Char} (h : isFloatTok cs = true) :
    cs ≠ [] := by
  intro he
  subst he
  exact absurd h (by decide)

theorem isFloatTok_eq_false_of_digits {cs : List Char}
    (h : ∀ c ∈ cs, c.isDigit = true) : isFloatTok cs = false := by
  have hd : cs.dropWhile Char.isDigit = [] := List.dropWhile_eq_nil_iff.mpr h
  unfold isFloatTok
  rw [hd]

theorem pyLines_ne_nil (cs : List Char) : pyLines cs ≠ [] := by
  cases cs with
  | nil => simp [pyLines]
  | cons c cs =>
    by_cases hc : c = '\n'
    · simp [pyLines, hc]
    · rcases hh : pyLines cs with _ | ⟨l, ls⟩ <;> simp [pyLines, hc, hh]

theorem pyLines_eq_single {cs : List Char} (h : ∀ c ∈ cs, c ≠ '\n') :
    pyLines cs = [cs] := by
  induction cs with
  | nil => rfl
  | cons c cs ih =>
    have hc : ¬(c = '\n') := h c (List.mem_cons_self c cs)
    have ih2 := ih fun x hx => h x (List.mem_cons_of_mem c hx)
    simp [pyLines, hc, ih2]

theorem joinLines_cons_cons (c : Char) (r : List Char) (rs : List (List Char)) :
    joinLines ((c :: r) :: rs) = c :: joinLines (r :: rs) := by
  cases rs <;> rfl

theorem joinLines_pyLines (cs : List Char) : joinLines (pyLines cs) = cs := by
  induction cs with
  | nil => rfl
  | cons c cs ih =>
    obtain ⟨r, rs, hr⟩ := List.exists_cons_of_ne_nil (pyLines_ne_nil cs)
    by_cases hc : c = '\n'
    · subst hc
      simp only [pyLines, if_pos rfl]
      rw [hr] at ih ⊢
      show joinLines ([] :: r :: rs) = '\n' :: cs
      rw [show joinLines ([] :: r :: rs) = '\n' :: joinLines (r :: rs) from rfl, ih]
    · simp only [pyLines, if_neg hc]
      rw [hr] at ih ⊢
      show joinLines ((c :: r) :: rs) = c :: cs
      rw [joinLines_cons_cons, ih]

theorem dropWhile_eq_self_of_head {p : Char → Bool} {l : List Char}
    (h : ∀ a, l.head? = some a → p a = false) : l.dropWhile p = l := by
  cases l with
  | nil => rfl
  | cons a l =>
    have ha := h a rfl
    rw [List.dropWhile_cons_of_neg (by simp [ha])]

theorem pyStrip_eq_self {l : List Char}
    (h1 : ∀ a, l.head? = some a → pySpace a = false)
    (h2 : ∀ a, l.getLast? = some a → pySpace a = false) : pyStrip l = l := by
  unfold pyStrip
  rw [dropWhile_eq_self_of_head h1]
  rw [dropWhile_eq_self_of_head (fun a ha => h2 a (by rwa [List.head?_reverse] at ha))]
  exact List.reverse_reverse l

theorem splitWsAux_nil (cur : List Char) :
    splitWsAux cur [] = if cur.isEmpty then [] else [cur.reverse] :=
  rfl

theorem splitWsAux_cons (cur : List Char) (c : Char) (cs : List Char) :
    splitWsAux cur (c :: cs) =
      if pySpace c then
        if cur.isEmpty then splitWsAux [] cs else cur.reverse :: splitWsAux [] cs
      else splitWsAux (c :: cur) cs :=
  rfl

theorem splitWsAux_append {t : List Char} (h : ∀ c ∈ t, pySpace c = false) :
    ∀ (cur cs : List Char), splitWsAux cur (t ++ cs) = splitWsAux (t.reverse ++ cur) cs := by
  induction t with
  | nil => intro cur cs; simp
  | cons a t ih =>
    intro cur cs
    have ha : pySpace a = false := h a (List.mem_cons_self a t)
    rw [List.cons_append, splitWsAux_cons, ha]
    simp only [Bool.false_eq_true, if_false]
    rw [ih (fun c hc => h c (List.mem_cons_of_mem a hc)) (a :: cur) cs]
    rw [List.reverse_cons, List.append_assoc, List.singleton_append]

theorem splitWs_token_space {t : List Char} (ht : t ≠ [])
    (h : ∀ c ∈ t, pySpace c = false) {c : Char} (hc : pySpace c = true)
    (cs : List Char) : splitWs (t ++ c :: cs) = t :: splitWs cs := by
  unfold splitWs
  rw [splitWsAux_append h [] (c :: cs), splitWsAux_cons, hc]
  simp [List.isEmpty_iff, ht]

theorem splitWs_single {t : List Char} (ht : t ≠ [])
    (h : ∀ c ∈ t, pySpace c = false) : splitWs t = [t] := by
  unfold splitWs
  have h2 := splitWsAux_append h [] []
  rw [List.append_nil] at h2
  rw [h2, splitWsAux_nil]
  simp [List.isEmpty_iff, ht]

/-! ### Lemmas about the Python-dict model -/

theorem dictGet?_dictInsert {K V : Type} [DecidableEq K]
    (d : List (K × V)) (k h : K) (v : V) :
    dictGet? (dictInsert d k v) h = if h = k then some v else dictGet? d h := by
  induction d with
  | nil =>
    by_cases hk : h = k
    · simp [dictInsert, dictGet?, hk]
    · have hk2 : ¬(k = h) := fun hh => hk hh.symm
      simp [dictInsert, dictGet?, hk, hk2]
  | cons p d ih =>
    by_cases hp : p.1 = k
    · by_cases hk : h = k
      · simp [dictInsert, dictGet?, hp, hk]
      · have hk2 : ¬(k = h) := fun hh => hk hh.symm
        have hph : ¬(p.1 = h) := fun hh => hk (hh.symm.trans hp)
        simp [dictInsert, dictGet?, hp, hk, hk2, hph]
    · by_cases hph : p.1 = h
      · have hk : ¬(h = k) := fun hh => hp (hph.trans hh)
        simp [dictInsert, dictGet?, hp, hph, hk]
      · simp [dictInsert, dictGet?, hp, hph, ih]

theorem dictGet?_foldl_dictInsert {K V : Type} [DecidableEq K]
    (pairs : List (K × V)) (d0 : List (K × V)) (h : K) :
    dictGet? (pairs.foldl (fun d p => dictInsert d p.1 p.2) d0) h =
      ((pairs.reverse.find? fun p => decide (p.1 = h)).map Prod.snd).or
        (dictGet? d0 h) := by
  induction pairs generalizing d0 with
  | nil => simp
  | cons p rest ih =>
    simp only [List.foldl_cons, List.reverse_cons, List.find?_append]
    rw [ih, dictGet?_dictInsert]
    rcases hf : rest.reverse.find? (fun p => decide (p.1 = h)) with _ | q
    · simp only [hf, Option.map_none', Option.none_or]
      by_cases hph : p.1 = h
      · have h2 : h = p.1 := hph.symm
        rw [List.find?_cons_of_pos _ (by simp [hph])]
        simp [h2]
      · have h2 : ¬(h = p.1) := fun hh => hph hh.symm
        rw [List.find?_cons_of_neg _ (by simp [hph])]
        simp [h2]
    · simp [hf]

/-! ### Lemmas about assembled single-line bodies -/

theorem getLast?_append_ne_nil {l₂ : List Char} (l₁ : List Char) (h : l₂ ≠ []) :
    (l₁ ++ l₂).getLast? = l₂.getLast? := by
  rw [List.getLast?_append]
  cases hx : l₂.getLast? with
  | none => exact absurd (List.getLast?_eq_none_iff.mp hx) h
  | some b => rfl

theorem splitWs_mkLine : ∀ {ts : List (List Char)},
    (∀ t ∈ ts, t ≠ [] ∧ ∀ c ∈ t, pySpace c = false) →
    splitWs (mkLine ts) = ts
  | [], _ => rfl
  | [t], h =>
    splitWs_single (h t (List.mem_cons_self t [])).1 (h t (List.mem_cons_self t [])).2
  | t :: t' :: ts, h => by
    have ht := h t (List.mem_cons_self t (t' :: ts))
    show splitWs (t ++ ' ' :: mkLine (t' :: ts)) = _
    rw [splitWs_token_space ht.1 ht.2 (by decide) _]
    rw [splitWs_mkLine fun x hx => h x (List.mem_cons_of_mem t hx)]

theorem mkLine_chars : ∀ {ts : List (List Char)},
    (∀ t ∈ ts, ∀ c ∈ t, pySpace c = false) →
    ∀ c ∈ mkLine ts, pySpace c = false ∨ c = ' '
  | [], _, c, hc => absurd hc (List.not_mem_nil c)
  | [t], h, c, hc => Or.inl (h t (List.mem_cons_self t []) c hc)
  | t :: t' :: ts, h, c, hc => by
    rw [show mkLine (t :: t' :: ts) = t ++ ' ' :: mkLine (t' :: ts) from rfl] at hc
    rcases List.mem_append.mp hc with hc | hc
    · exact Or.inl (h t (List.mem_cons_self t (t' :: ts)) c hc)
    · rcases List.mem_cons.mp hc with hc | hc
      · exact Or.inr hc
      · exact mkLine_chars (fun x hx => h x (List.mem_cons_of_mem t hx)) c hc

theorem mkLine_not_newline {ts : List (List Char)}
    (h : ∀ t ∈ ts, ∀ c ∈ t, pySpace c = false) :
    ∀ c ∈ mkLine ts, c ≠ '\n' := by
  intro c hc
  rcases mkLine_chars h c hc with hx | hx
  · exact ne_newline_of_pySpace_eq_false hx
  · subst hx; decide

theorem mkLine_head? {t : List Char} (ht : t ≠ []) (ts : List (List Char)) :
    (mkLine (t :: ts)).head? = t.head? := by
  rcases List.exists_cons_of_ne_nil ht with ⟨a, t', rfl⟩
  cases ts with
  | nil => rfl
  | cons s ts => rfl

theorem mkLine_ne_nil {t : List Char} (ht : t ≠ []) (ts : List (List Char)) :
    mkLine (t :: ts) ≠ [] := by
  rcases List.exists_cons_of_ne_nil ht with ⟨a, t', rfl⟩
  cases ts with
  | nil => exact List.cons_ne_nil a t'
  | cons s ts => exact List.cons_ne_nil a _

theorem mkLine_cons_cons (s s' : List Char) (ts : List (List Char)) :
    mkLine (s :: s' :: ts) = s ++ ' ' :: mkLine (s' :: ts) := by
  cases ts <;> rfl

theorem mkLine_getLast? : ∀ (ts : List (List Char)) {t : List Char}, t ≠ [] →
    (mkLine (ts ++ [t])).getLast? = t.getLast?
  | [], t, ht => rfl
  | s :: ts, t, ht => by
    have heq : mkLine ((s :: ts) ++ [t]) = s ++ ' ' :: mkLine (ts ++ [t]) := by
      cases ts with
      | nil => rfl
      | cons s' ts' => rfl
    have hrest : mkLine (ts ++ [t]) ≠ [] := by
      cases ts with
      | nil => exact ht
      | cons s' ts' =>
        rcases List.exists_cons_of_ne_nil
            (List.append_ne_nil_of_right_ne_nil ts' (List.cons_ne_nil t [])) with ⟨r, rs, hr⟩
        rw [List.cons_append, hr, mkLine_cons_cons]
        exact List.append_ne_nil_of_right_ne_nil s' (List.cons_ne_nil ' ' _)
    rw [heq, getLast?_append_ne_nil s (List.cons_ne_nil ' ' _)]
    rw [show (' ' :: mkLine (ts ++ [t])) = [' '] ++ mkLine (ts ++ [t]) from rfl]
    rw [getLast?_append_ne_nil [' '] hrest]
    exact mkLine_getLast? ts ht

theorem pyStrip_mkLine {ts : List (List Char)}
    (h : ∀ t ∈ ts, t ≠ [] ∧ ∀ c ∈ t, pySpace c = false) (hne : ts ≠ []) :
    pyStrip (mkLine ts) = mkLine ts := by
  apply pyStrip_eq_self
  · intro a ha
    rcases List.exists_cons_of_ne_nil hne with ⟨t, ts', rfl⟩
    have ht := h t (List.mem_cons_self t ts')
    rw [mkLine_head? ht.1 ts'] at ha
    exact ht.2 a (List.mem_of_mem_head? ha)
  · intro a ha
    rcases List.eq_nil_or_concat ts with rfl | ⟨ts', t, rfl⟩
    · exact absurd rfl hne
    · have ht := h t (by simp [List.concat_eq_append])
      rw [List.concat_eq_append] at ha
      rw [mkLine_getLast? ts' ht.1] at ha
      exact ht.2 a (List.mem_of_getLast?_eq_some ha)

theorem parseTableLines_mkLine {R : Type} (skip : List Char → Bool)
    (row : List Char → Option R) {ts : List (List Char)}
    (h : ∀ t ∈ ts, t ≠ [] ∧ ∀ c ∈ t, pySpace c = false) (hne : ts ≠ [])
    (hrow : row (mkLine ts) = none) :
    parseTableLines skip row (mkLine ts) = [] := by
  have hnl : ∀ c ∈ mkLine ts, c ≠ '\n' :=
    mkLine_not_newline fun t ht => (h t ht).2
  have hstrip : pyStrip (mkLine ts) = mkLine ts := pyStrip_mkLine h hne
  have hlne : mkLine ts ≠ [] := by
    rcases List.exists_cons_of_ne_nil hne with ⟨t, ts', rfl⟩
    exact mkLine_ne_nil (h t (List.mem_cons_self t ts')).1 ts'
  unfold parseTableLines
  rw [pyLines_eq_single hnl]
  have hempty : (mkLine ts).isEmpty = false := by
    simp [List.isEmpty_iff, hlne]
  cases hsk : skip (mkLine ts) <;>
    simp [List.filterMap_cons, List.filterMap_nil, hstrip, hempty, hsk, hrow]

/-! ### Row matchers on assembled token lines -/

theorem isDigitsTok_all_digits {cs : List Char} (h : isDigitsTok cs = true) :
    ∀ c ∈ cs, c.isDigit = true := by
  simp only [isDigitsTok, Bool.and_eq_true, List.all_eq_true] at h
  exact h.2

theorem isTok_of_digits {cs : List Char} (h : isDigitsTok cs = true) : isTok cs :=
  ⟨isDigitsTok_ne_nil h, isDigitsTok_chars h⟩

theorem isTok_of_float {cs : List Char} (h : isFloatTok cs = true) : isTok cs :=
  ⟨isFloatTok_ne_nil h, isFloatTok_chars h⟩

theorem goodToks2 {a b : List Char} (ha : isTok a) (hb : isTok b) :
    ∀ x ∈ [a, b], x ≠ [] ∧ ∀ c ∈ x, pySpace c = false := by
  intro x hx
  rcases List.mem_cons.mp hx with rfl | hx
  · exact ha
  have h2 := List.mem_singleton.mp hx
  subst h2
  exact hb

theorem goodToks3 {a b c : List Char} (ha : isTok a) (hb : isTok b) (hc : isTok c) :
    ∀ x ∈ [a, b, c], x ≠ [] ∧ ∀ ch ∈ x, pySpace ch = false := by
  intro x hx
  rcases List.mem_cons.mp hx with rfl | hx
  · exact ha
  exact goodToks2 hb hc x hx

theorem goodToks4 {a b c d : List Char} (ha : isTok a) (hb : isTok b)
    (hc : isTok c) (hd : isTok d) :
    ∀ x ∈ [a, b, c, d], x ≠ [] ∧ ∀ ch ∈ x, pySpace ch = false := by
  intro x hx
  rcases List.mem_cons.mp hx with rfl | hx
  · exact ha
  exact goodToks3 hb hc hd x hx

theorem matchLoginSummary_none_of_bad {u s f : List Char}
    (hgood : ∀ x ∈ [u, s, f], x ≠ [] ∧ ∀ c ∈ x, pySpace c = false)
    (h : isDigitsTok s = false ∨ isDigitsTok f = false) :
    matchLoginSummary (mkLine [u, s, f]) = none := by
  unfold matchLoginSummary
  rw [splitWs_mkLine hgood]
  rcases h with h | h <;> simp [h]

theorem matchProvider_none_of_bad {p k e t : List Char}
    (hgood : ∀ x ∈ [p, k, e, t], x ≠ [] ∧ ∀ c ∈ x, pySpace c = false)
    (h : isFloatTok k = false ∨ isDigitsTok e = false ∨ isDigitsTok t = false) :
    matchProvider (mkLine [p, k, e, t]) = none := by
  unfold matchProvider
  rw [splitWs_mkLine hgood]
  rcases h with h | h | h <;> simp [h]

theorem matchKBUsage_none_of_bad {u k : List Char}
    (hgood : ∀ x ∈ [u, k], x ≠ [] ∧ ∀ c ∈ x, pySpace c = false)
    (h : isFloatTok k = false) :
    matchKBUsage (mkLine [u, k]) = none := by
  unfold matchKBUsage
  rw [splitWs_mkLine hgood]
  simp [h]

theorem matchSPU_none_of_bad {d n x : List Char}
    (hgood : ∀ y ∈ [d, n, x], y ≠ [] ∧ ∀ c ∈ y, pySpace c = false)
    (h : isDigitsTok n = false ∨ isDigitsTok x = false) :
    matchSPU (mkLine [d, n, x]) = none := by
  unfold matchSPU
  rw [splitWs_mkLine hgood]
  rcases h with h | h <;> simp [h]

theorem parse_spu_of_rows_nil {body : String} (h : spuRows body = []) :
    parse_spu_summary_usage body = [] := by
  unfold parse_spu_summary_usage spuSortedIdx
  rw [h]
  simp

theorem matchProvider_none_of_three {p k e : List Char}
    (hgood : ∀ t ∈ [p, k, e], t ≠ [] ∧ ∀ c ∈ t, pySpace c = false) :
    matchProvider (mkLine [p, k, e]) = none := by
  unfold matchProvider
  rw [splitWs_mkLine hgood]

theorem matchProvider_none_of_int_kb {p k e t : List Char}
    (hgood : ∀ x ∈ [p, k, e, t], x ≠ [] ∧ ∀ c ∈ x, pySpace c = false)
    (hk : isDigitsTok k = true) :
    matchProvider (mkLine [p, k, e, t]) = none := by
  unfold matchProvider
  rw [splitWs_mkLine hgood]
  simp [isFloatTok_eq_false_of_digits (isDigitsTok_all_digits hk)]

theorem matchKBUsage_none_of_int_kb {u k : List Char}
    (hgood : ∀ x ∈ [u, k], x ≠ [] ∧ ∀ c ∈ x, pySpace c = false)
    (hk : isDigitsTok k = true) :
    matchKBUsage (mkLine [u, k]) = none := by
  unfold matchKBUsage
  rw [splitWs_mkLine hgood]
  simp [isFloatTok_eq_false_of_digits (isDigitsTok_all_digits hk)]

/-! ### Router lemmas -/

theorem applyRule_no_match {sections : List (List Char × List Char)}
    {kw : List Char} {keyName : Option String} {pf : String → Df}
    {d : List (String × Df)}
    (h : ∀ s ∈ sections, containsSub kw (lowerList s.1) = false) :
    applyRule sections kw keyName pf d = d := by
  unfold applyRule
  rw [List.find?_eq_none.mpr (by intro x hx; simp [h x hx])]

theorem applyRule_match_first {hdr content : List Char}
    {rest : List (List Char × List Char)} {kw : List Char}
    {keyName : Option String} {pf : String → Df} {d : List (String × Df)}
    (h : containsSub kw (lowerList hdr) = true) :
    applyRule ((hdr, content) :: rest) kw keyName pf d =
      (if (pf (String.mk content)).isEmpty then d
       else dictInsert d
         (match keyName with
          | some n => n
          | none => "KBUsage_" ++ String.mk hdr) (pf (String.mk content))) := by
  unfold applyRule
  rw [List.find?_cons_of_pos _ (by simpa using h)]

theorem foldl_applyRule_no_match (sections : List (List Char × List Char)) :
    ∀ (L : List (List Char × Option String × (String → Df))),
    (∀ e ∈ L, ∀ s ∈ sections, containsSub e.1 (lowerList s.1) = false) →
    ∀ d, L.foldl (fun d e => applyRule sections e.1 e.2.1 e.2.2 d) d = d
  | [], _, d => rfl
  | e :: L, h, d => by
    simp only [List.foldl_cons]
    rw [applyRule_no_match (h e (List.mem_cons_self e L))]
    exact foldl_applyRule_no_match sections L
      (fun x hx => h x (List.mem_cons_of_mem e hx)) d

theorem preKey_keywords : ∀ e ∈ parserMapping,
    containsSub e.1 (lowerList ("(pre-file text)").data) = false := by
  decide

theorem buildDatasets_single_preamble (v : List Char) :
    buildDatasets [(("(pre-file text)").data, v)] = [] := by
  unfold buildDatasets
  apply foldl_applyRule_no_match
  intro e he s hs
  have hs2 := List.mem_singleton.mp hs
  subst hs2
  exact preKey_keywords e he

theorem no_kw_single {kw hdr : List Char}
    (h : containsSub kw (lowerList hdr) = false) (content : List Char) :
    ∀ s ∈ [(hdr, content)], containsSub kw (lowerList s.1) = false := by
  intro s hs
  have hs2 := List.mem_singleton.mp hs
  subst hs2
  exact h

theorem no_kw_pair {kw hA hB : List Char}
    (h1 : containsSub kw (lowerList hA) = false)
    (h2 : containsSub kw (lowerList hB) = false) (cA cB : List Char) :
    ∀ s ∈ [(hA, cA), (hB, cB)], containsSub kw (lowerList s.1) = false := by
  intro s hs
  rcases List.mem_cons.mp hs with hs2 | hs2
  · subst hs2; exact h1
  · have hs3 := List.mem_singleton.mp hs2
    subst hs3
    exact h2

/-! ### SPU sort order lemmas -/

theorem spuLE_total (a b : Nat × SPURec) : spuLE a b || spuLE b a := by
  simp only [spuLE, Bool.or_eq_true, Bool.and_eq_true, decide_eq_true_eq]
  omega

theorem spuLE_trans (a b c : Nat × SPURec) : spuLE a b → spuLE b c → spuLE a c := by
  simp only [spuLE, Bool.or_eq_true, Bool.and_eq_true, decide_eq_true_eq]
  omega

/-! ### Claim theorems -/

/-- C9: a well-formed Logins row yields exactly one Record with
username "alice", ip "10.0.0.5" and geography "US-CA"; a LoginSummary body
with the column-header line and one data row yields exactly the Record
(bob, 12, 3), the header line producing no Record. -/
theorem C9_logins_and_login_summary_rows :
    parse_logins_table
        "2023-01-05 08:30:00 2023-01-05 09:15:00 alice sess123 10.0.0.5 US-CA" =
      [⟨"2023-01-05", "08:30:00", "2023-01-05", "09:15:00",
        "alice", "sess123", "10.0.0.5", "US-CA"⟩] ∧
    parse_login_summary_table "Username Successful Failures\nbob 12 3" =
      [⟨"bob", 12, 3⟩] :=
  ⟨by decide, by decide⟩

/-- C3 (code bug): a space-separated MultipleGeographies data line
`user alice 3 US CA` produces NO Record: the row regex alone matches it
(second conjunct), but the parser's skip predicate also fires on every line
starting with "user " (third conjunct), so the line is filtered out before
the regex runs and the parser returns the empty sequence (first conjunct). -/
theorem C3_code_bug_user_rows_skipped :
    parse_multiple_geographies_table "user alice 3 US CA" = [] ∧
    matchMultipleGeographies (pyStrip ("user alice 3 US CA").data) =
      some ⟨"alice", "3", "US CA"⟩ ∧
    skipMultipleGeographies (pyStrip ("user alice 3 US CA").data) = true :=
  ⟨by decide, by decide, by decide⟩

/-- C4 counterexample: a LoginSummary line whose numeric field holds
non-numeric text produces no Record at all, contradicting the claim that the
row is retained with the field recorded as missing. -/
theorem C4_cex_nonnumeric_row_dropped :
    parse_login_summary_table "bob abc 3" = [] := by
  decide

/-- C4 (amended): in every table parser, a body line whose declared-numeric
field holds text that does not match the numeric grammar fails the row regex
and is dropped entirely - no Record is emitted for it - even when all other
fields are well-formed. One conjunct per declared-numeric field of each
shape: LoginSummary successful and failures (`\d+`), ProviderAccess kb
(`\d+\.\d+`), errors and total (`\d+`), KBUsageByUser kb (`\d+\.\d+`), and
SPUSummaryByUsage number_of_accesses and unknown_599 (`\d+`). The Logins and
MultipleGeographies shapes declare no numeric field (count stays text).
Numeric coercion of matched rows never fails because the row grammar only
matches digit sequences. -/
theorem C4_amended_nonnumeric_row_dropped :
    (∀ u s f : List Char, isTok u → isTok s → isDigitsTok s = false →
      isDigitsTok f = true →
      parse_login_summary_table (String.mk (mkLine [u, s, f])) = []) ∧
    (∀ u s f : List Char, isTok u → isTok f → isDigitsTok s = true →
      isDigitsTok f = false →
      parse_login_summary_table (String.mk (mkLine [u, s, f])) = []) ∧
    (∀ p k e t : List Char, isTok p → isTok k → isFloatTok k = false →
      isDigitsTok e = true → isDigitsTok t = true →
      parse_provider_access_table (String.mk (mkLine [p, k, e, t])) = []) ∧
    (∀ p k e t : List Char, isTok p → isTok e → isFloatTok k = true →
      isDigitsTok e = false → isDigitsTok t = true →
      parse_provider_access_table (String.mk (mkLine [p, k, e, t])) = []) ∧
    (∀ p k e t : List Char, isTok p → isTok t → isFloatTok k = true →
      isDigitsTok e = true → isDigitsTok t = false →
      parse_provider_access_table (String.mk (mkLine [p, k, e, t])) = []) ∧
    (∀ u k : List Char, isTok u → isTok k → isFloatTok k = false →
      parse_kb_usage_by_user (String.mk (mkLine [u, k])) = []) ∧
    (∀ d n x : List Char, isTok d → isTok n → isDigitsTok n = false →
      isDigitsTok x = true →
      parse_spu_summary_usage (String.mk (mkLine [d, n, x])) = []) ∧
    (∀ d n x : List Char, isTok d → isTok x → isDigitsTok n = true →
      isDigitsTok x = false →
      parse_spu_summary_usage (String.mk (mkLine [d, n, x])) = []) := by
  refine ⟨?_, ?_, ?_, ?_, ?_, ?_, ?_, ?_⟩
  · intro u s f hu hs hbad hf
    have hgood := goodToks3 hu hs (isTok_of_digits hf)
    show parseTableLines skipLoginSummary matchLoginSummary (String.mk (mkLine [u, s, f])).data = []
    exact parseTableLines_mkLine _ _ hgood (by simp)
      (matchLoginSummary_none_of_bad hgood (Or.inl hbad))
  · intro u s f hu hf hsd hbad
    have hgood := goodToks3 hu (isTok_of_digits hsd) hf
    show parseTableLines skipLoginSummary matchLoginSummary (String.mk (mkLine [u, s, f])).data = []
    exact parseTableLines_mkLine _ _ hgood (by simp)
      (matchLoginSummary_none_of_bad hgood (Or.inr hbad))
  · intro p k e t hp hk hbad hed htd
    have hgood := goodToks4 hp hk (isTok_of_digits hed) (isTok_of_digits htd)
    show parseTableLines skipProvider matchProvider (String.mk (mkLine [p, k, e, t])).data = []
    exact parseTableLines_mkLine _ _ hgood (by simp)
      (matchProvider_none_of_bad hgood (Or.inl hbad))
  · intro p k e t hp he hkf hbad htd
    have hgood := goodToks4 hp (isTok_of_float hkf) he (isTok_of_digits htd)
    show parseTableLines skipProvider matchProvider (String.mk (mkLine [p, k, e, t])).data = []
    exact parseTableLines_mkLine _ _ hgood (by simp)
      (matchProvider_none_of_bad hgood (Or.inr (Or.inl hbad)))
  · intro p k e t hp ht hkf hed hbad
    have hgood := goodToks4 hp (isTok_of_float hkf) (isTok_of_digits hed) ht
    show parseTableLines skipProvider matchProvider (String.mk (mkLine [p, k, e, t])).data = []
    exact parseTableLines_mkLine _ _ hgood (by simp)
      (matchProvider_none_of_bad hgood (Or.inr (Or.inr hbad)))
  · intro u k hu hk hbad
    have hgood := goodToks2 hu hk
    show parseTableLines skipKBUsage matchKBUsage (String.mk (mkLine [u, k])).data = []
    exact parseTableLines_mkLine _ _ hgood (by simp)
      (matchKBUsage_none_of_bad hgood hbad)
  · intro d n x hd hn hbad hx
    have hgood := goodToks3 hd hn (isTok_of_digits hx)
    apply parse_spu_of_rows_nil
    show parseTableLines skipSPU matchSPU (String.mk (mkLine [d, n, x])).data = []
    exact parseTableLines_mkLine _ _ hgood (by simp)
      (matchSPU_none_of_bad hgood (Or.inl hbad))
  · intro d n x hd hx hnd hbad
    have hgood := goodToks3 hd (isTok_of_digits hnd) hx
    apply parse_spu_of_rows_nil
    show parseTableLines skipSPU matchSPU (String.mk (mkLine [d, n, x])).data = []
    exact parseTableLines_mkLine _ _ hgood (by simp)
      (matchSPU_none_of_bad hgood (Or.inr hbad))

/-- C4 witness: the amended statement applied to one concrete dropped line
per table shape: `bob abc 3` (LoginSummary), `libX 12x45 2 9001`
(ProviderAccess), `alice badkb` (KBUsageByUser), `site many 0`
(SPUSummaryByUsage). -/
theorem C4_amended_witness :
    isDigitsTok ("abc").data = false ∧
    parse_login_summary_table
      (String.mk (mkLine [("bob").data, ("abc").data, ("3").data])) = [] ∧
    parse_provider_access_table
      (String.mk (mkLine [("libX").data, ("12x45").data, ("2").data, ("9001").data])) = [] ∧
    parse_kb_usage_by_user
      (String.mk (mkLine [("alice").data, ("badkb").data])) = [] ∧
    parse_spu_summary_usage
      (String.mk (mkLine [("site").data, ("many").data, ("0").data])) = [] :=
  ⟨by decide,
   C4_amended_nonnumeric_row_dropped.1 ("bob").data ("abc").data ("3").data
     ⟨by decide, by decide⟩ ⟨by decide, by decide⟩ (by decide) (by decide),
   C4_amended_nonnumeric_row_dropped.2.2.1 ("libX").data ("12x45").data ("2").data
     ("9001").data ⟨by decide, by decide⟩ ⟨by decide, by decide⟩ (by decide)
     (by decide) (by decide),
   C4_amended_nonnumeric_row_dropped.2.2.2.2.2.1 ("alice").data ("badkb").data
     ⟨by decide, by decide⟩ ⟨by decide, by decide⟩ (by decide),
   C4_amended_nonnumeric_row_dropped.2.2.2.2.2.2.1 ("site").data ("many").data
     ("0").data ⟨by decide, by decide⟩ ⟨by decide, by decide⟩ (by decide) (by decide)⟩

/-- C8: the ProviderAccess line `libX 123.45 2 9001` yields exactly the
Record (libX, 123.45, 2, 9001); and every otherwise well-formed line missing
the trailing total integer (provider token, kb token, errors token, nothing
after) yields no Record at all. -/
theorem C8_provider_row_parsed_and_short_row_dropped :
    parse_provider_access_table "libX 123.45 2 9001" =
      [⟨"libX", (123.45 : ℚ), 2, 9001⟩] ∧
    ∀ p k e : List Char, p ≠ [] → (∀ c ∈ p, pySpace c = false) →
      isFloatTok k = true → isDigitsTok e = true →
      parse_provider_access_table (String.mk (mkLine [p, k, e])) = [] := by
  constructor
  · have hv : (123.45 : ℚ) = floatVal ("123.45").data := by
      have ht : floatVal ("123.45").data =
          (digitsVal ("123").data : ℚ) + (digitsVal ("45").data : ℚ) / (10 : ℚ) ^ 2 := rfl
      have hd1 : digitsVal ("123").data = 123 := rfl
      have hd2 : digitsVal ("45").data = 45 := rfl
      rw [ht, hd1, hd2]
      norm_num
    rw [hv]
    rfl
  · intro p k e hp1 hp2 hk he
    have hgood : ∀ x ∈ [p, k, e], x ≠ [] ∧ ∀ c ∈ x, pySpace c = false := by
      intro x hx
      rcases List.mem_cons.mp hx with rfl | hx
      · exact ⟨hp1, hp2⟩
      rcases List.mem_cons.mp hx with rfl | hx
      · exact ⟨isFloatTok_ne_nil hk, isFloatTok_chars hk⟩
      have h3 := List.mem_singleton.mp hx
      subst h3
      exact ⟨isDigitsTok_ne_nil he, isDigitsTok_chars he⟩
    show parseTableLines skipProvider matchProvider (String.mk (mkLine [p, k, e])).data = []
    exact parseTableLines_mkLine _ _ hgood (by simp) (matchProvider_none_of_three hgood)

/-- C8 witness: the general part applied to the concrete line `libX 123.45 2`. -/
theorem C8_witness :
    isFloatTok ("123.45").data = true ∧ isDigitsTok ("2").data = true ∧
    parse_provider_access_table
      (String.mk (mkLine [("libX").data, ("123.45").data, ("2").data])) = [] :=
  ⟨by decide, by decide,
   C8_provider_row_parsed_and_short_row_dropped.2 ("libX").data ("123.45").data ("2").data
     (by decide) (by decide) (by decide) (by decide)⟩

/-- C10: a kb field written as a plain digit string (no decimal point) never
matches the `\d+\.\d+` kb grammar, so an otherwise well-formed ProviderAccess
line `p kb e t` and an otherwise well-formed KBUsage line `u kb` each produce
no Record. -/
theorem C10_integer_kb_rows_rejected (p kb e tt u : List Char)
    (hp1 : p ≠ []) (hp2 : ∀ c ∈ p, pySpace c = false)
    (hu1 : u ≠ []) (hu2 : ∀ c ∈ u, pySpace c = false)
    (hkb : isDigitsTok kb = true) (he : isDigitsTok e = true)
    (htt : isDigitsTok tt = true) :
    parse_provider_access_table (String.mk (mkLine [p, kb, e, tt])) = [] ∧
    parse_kb_usage_by_user (String.mk (mkLine [u, kb])) = [] := by
  constructor
  · have hgood : ∀ x ∈ [p, kb, e, tt], x ≠ [] ∧ ∀ c ∈ x, pySpace c = false := by
      intro x hx
      rcases List.mem_cons.mp hx with rfl | hx
      · exact ⟨hp1, hp2⟩
      rcases List.mem_cons.mp hx with rfl | hx
      · exact ⟨isDigitsTok_ne_nil hkb, isDigitsTok_chars hkb⟩
      rcases List.mem_cons.mp hx with rfl | hx
      · exact ⟨isDigitsTok_ne_nil he, isDigitsTok_chars he⟩
      have h4 := List.mem_singleton.mp hx
      subst h4
      exact ⟨isDigitsTok_ne_nil htt, isDigitsTok_chars htt⟩
    show parseTableLines skipProvider matchProvider (String.mk (mkLine [p, kb, e, tt])).data = []
    exact parseTableLines_mkLine _ _ hgood (by simp)
      (matchProvider_none_of_int_kb hgood hkb)
  · have hgood : ∀ x ∈ [u, kb], x ≠ [] ∧ ∀ c ∈ x, pySpace c = false := by
      intro x hx
      rcases List.mem_cons.mp hx with rfl | hx
      · exact ⟨hu1, hu2⟩
      have h2 := List.mem_singleton.mp hx
      subst h2
      exact ⟨isDigitsTok_ne_nil hkb, isDigitsTok_chars hkb⟩
    show parseTableLines skipKBUsage matchKBUsage (String.mk (mkLine [u, kb])).data = []
    exact parseTableLines_mkLine _ _ hgood (by simp)
      (matchKBUsage_none_of_int_kb hgood hkb)

/-- C10 witness: the theorem applied to the concrete lines `libX 123 2 9001`
and `alice 42`. -/
theorem C10_witness :
    isDigitsTok ("123").data = true ∧
    parse_provider_access_table
      (String.mk (mkLine [("libX").data, ("123").data, ("2").data, ("9001").data])) = [] ∧
    parse_kb_usage_by_user (String.mk (mkLine [("alice").data, ("123").data])) = [] := by
  have h := C10_integer_kb_rows_rejected ("libX").data ("123").data ("2").data
    ("9001").data ("alice").data (by decide) (by decide) (by decide) (by decide)
    (by decide) (by decide) (by decide)
  exact ⟨by decide, h.1, h.2⟩

/-- C1 counterexample: for the single-section document whose header contains
"report of all content provider accesses sorted by kb transferred", the final
collection contains BOTH the ProviderAccess_byKB dataset (rule 4) and the
ProviderAccess dataset (rule 5): rule 5 is a plain substring test with no
"does not contain sorted by kb" condition, and each rule scans the sections
independently. -/
theorem C1_cex_both_provider_rules_fire :
    (pipeline "Report of all content provider accesses sorted by KB transferred\nlibX 123.45 2 9001").map
        Prod.fst =
      ["ProviderAccess_byKB", "ProviderAccess"] := by
  decide

/-- C1 (amended): a section whose header contains the by-KB keyword is
claimed by rule 4 AND also by rule 5 (whose keyword is a substring of rule
4's): whenever its body parses to a non-empty provider table, the collection
receives the same DataFrame under both dataset names, in rule order. -/
theorem C1_amended_byKB_header_matches_both_rules (content : List Char)
    (hne : parse_provider_access_table (String.mk content) ≠ []) :
    buildDatasets
        [(("Report of all content provider accesses sorted by KB transferred").data, content)] =
      [("ProviderAccess_byKB",
        Df.providerAccess (parse_provider_access_table (String.mk content))),
       ("ProviderAccess",
        Df.providerAccess (parse_provider_access_table (String.mk content)))] := by
  have e1 : containsSub ("report of all logins sorted by username").data
      (lowerList ("Report of all content provider accesses sorted by KB transferred").data) = false := by
    decide
  have e2 : containsSub ("login summary sorted by username").data
      (lowerList ("Report of all content provider accesses sorted by KB transferred").data) = false := by
    decide
  have e3 : containsSub ("all successful logins coming from multiple geographies").data
      (lowerList ("Report of all content provider accesses sorted by KB transferred").data) = false := by
    decide
  have m4 : containsSub ("report of all content provider accesses sorted by kb transferred").data
      (lowerList ("Report of all content provider accesses sorted by KB transferred").data) = true := by
    decide
  have m5 : containsSub ("report of all content provider accesses").data
      (lowerList ("Report of all content provider accesses sorted by KB transferred").data) = true := by
    decide
  have e6 : containsSub ("report total kb usage by user").data
      (lowerList ("Report of all content provider accesses sorted by KB transferred").data) = false := by
    decide
  have e7 : containsSub ("spu summary sorted by usage").data
      (lowerList ("Report of all content provider accesses sorted by KB transferred").data) = false := by
    decide
  have hemp : (Df.providerAccess (parse_provider_access_table (String.mk content))).isEmpty = false := by
    simp [Df.isEmpty, List.isEmpty_iff, hne]
  have hkey : ¬(("ProviderAccess_byKB" : String) = "ProviderAccess") := by decide
  unfold buildDatasets parserMapping
  simp only [List.foldl_cons, List.foldl_nil]
  rw [applyRule_no_match (no_kw_single e1 content),
      applyRule_no_match (no_kw_single e2 content),
      applyRule_no_match (no_kw_single e3 content),
      applyRule_match_first m4,
      applyRule_match_first m5,
      applyRule_no_match (no_kw_single e6 content),
      applyRule_no_match (no_kw_single e7 content)]
  rw [hemp]
  simp [dictInsert, hkey]

/-- C1 witness: the amended statement at a concrete one-row provider body. -/
theorem C1_amended_witness :
    parse_provider_access_table (String.mk ("libX 123.45 2 9001").data) ≠ [] ∧
    buildDatasets
        [(("Report of all content provider accesses sorted by KB transferred").data,
          ("libX 123.45 2 9001").data)] =
      [("ProviderAccess_byKB",
        Df.providerAccess (parse_provider_access_table (String.mk ("libX 123.45 2 9001").data))),
       ("ProviderAccess",
        Df.providerAccess (parse_provider_access_table (String.mk ("libX 123.45 2 9001").data)))] :=
  ⟨by decide, C1_amended_byKB_header_matches_both_rules ("libX 123.45 2 9001").data (by decide)⟩

/-- C2 counterexample: a document with two distinct KB-usage sections, both
of whose bodies parse to a Record, yields exactly ONE dataset (for the first
section); the routing loop breaks after the first matching section, so the
second KB-usage section is dropped, contradicting "one dataset per section". -/
theorem C2_cex_second_kb_section_dropped :
    (pipeline "Report Total KB usage by user A\nalice 1.5\nReport Total KB usage by user B\nbob 2.5").map
        Prod.fst =
      ["KBUsage_Report Total KB usage by user A"] := by
  decide

/-- C2 (amended): with two sections whose headers contain "report total kb
usage by user", only the first one (in document order) is parsed and kept -
under the name "KBUsage_" prefixed to ITS header - and the second section is
ignored entirely, whatever its body. -/
theorem C2_amended_only_first_kb_section_kept (bodyA bodyB : List Char)
    (hne : parse_kb_usage_by_user (String.mk bodyA) ≠ []) :
    buildDatasets [(("Report Total KB usage by user A").data, bodyA),
                   (("Report Total KB usage by user B").data, bodyB)] =
      [("KBUsage_" ++ String.mk ("Report Total KB usage by user A").data,
        Df.kbUsage (parse_kb_usage_by_user (String.mk bodyA)))] := by
  have e1A : containsSub ("report of all logins sorted by username").data
      (lowerList ("Report Total KB usage by user A").data) = false := by decide
  have e1B : containsSub ("report of all logins sorted by username").data
      (lowerList ("Report Total KB usage by user B").data) = false := by decide
  have e2A : containsSub ("login summary sorted by username").data
      (lowerList ("Report Total KB usage by user A").data) = false := by decide
  have e2B : containsSub ("login summary sorted by username").data
      (lowerList ("Report Total KB usage by user B").data) = false := by decide
  have e3A : containsSub ("all successful logins coming from multiple geographies").data
      (lowerList ("Report Total KB usage by user A").data) = false := by decide
  have e3B : containsSub ("all successful logins coming from multiple geographies").data
      (lowerList ("Report Total KB usage by user B").data) = false := by decide
  have e4A : containsSub ("report of all content provider accesses sorted by kb transferred").data
      (lowerList ("Report Total KB usage by user A").data) = false := by decide
  have e4B : containsSub ("report of all content provider accesses sorted by kb transferred").data
      (lowerList ("Report Total KB usage by user B").data) = false := by decide
  have e5A : containsSub ("report of all content provider accesses").data
      (lowerList ("Report Total KB usage by user A").data) = false := by decide
  have e5B : containsSub ("report of all content provider accesses").data
      (lowerList ("Report Total KB usage by user B").data) = false := by decide
  have m6 : containsSub ("report total kb usage by user").data
      (lowerList ("Report Total KB usage by user A").data) = true := by decide
  have e7A : containsSub ("spu summary sorted by usage").data
      (lowerList ("Report Total KB usage by user A").data) = false := by decide
  have e7B : containsSub ("spu summary sorted by usage").data
      (lowerList ("Report Total KB usage by user B").data) = false := by decide
  have hemp : (Df.kbUsage (parse_kb_usage_by_user (String.mk bodyA))).isEmpty = false := by
    simp [Df.isEmpty, List.isEmpty_iff, hne]
  unfold buildDatasets parserMapping
  simp only [List.foldl_cons, List.foldl_nil]
  rw [applyRule_no_match (no_kw_pair e1A e1B bodyA bodyB),
      applyRule_no_match (no_kw_pair e2A e2B bodyA bodyB),
      applyRule_no_match (no_kw_pair e3A e3B bodyA bodyB),
      applyRule_no_match (no_kw_pair e4A e4B bodyA bodyB),
      applyRule_no_match (no_kw_pair e5A e5B bodyA bodyB),
      applyRule_match_first m6,
      applyRule_no_match (no_kw_pair e7A e7B bodyA bodyB)]
  rw [hemp]
  simp [dictInsert]

/-- C2 witness: the amended statement at concrete one-row bodies. -/
theorem C2_amended_witness :
    parse_kb_usage_by_user (String.mk ("alice 1.5").data) ≠ [] ∧
    buildDatasets [(("Report Total KB usage by user A").data, ("alice 1.5").data),
                   (("Report Total KB usage by user B").data, ("bob 2.5").data)] =
      [("KBUsage_" ++ String.mk ("Report Total KB usage by user A").data,
        Df.kbUsage (parse_kb_usage_by_user (String.mk ("alice 1.5").data)))] :=
  ⟨by decide,
   C2_amended_only_first_kb_section_kept ("alice 1.5").data ("bob 2.5").data (by decide)⟩

/-- C5: for every SPUSummaryByUsage body, the emitted sequence is the
projection of the position-indexed matched rows after the stable mergesort:
it is a permutation of the input rows (with `.1` their original positions),
pairwise sorted in descending access count, and rows with equal access counts
appear in strictly increasing original position (ties keep input order). -/
theorem C5_spu_sorted_descending_stable (body : String) :
    parse_spu_summary_usage body = (spuSortedIdx body).map Prod.snd ∧
    (spuSortedIdx body).Perm ((spuRows body).enum) ∧
    (spuSortedIdx body).Pairwise (fun p q =>
      q.2.number_of_accesses ≤ p.2.number_of_accesses ∧
      (p.2.number_of_accesses = q.2.number_of_accesses → p.1 < q.1)) := by
  refine ⟨rfl, List.mergeSort_perm _ _, ?_⟩
  have hs : (spuSortedIdx body).Pairwise fun a b => spuLE a b :=
    List.sorted_mergeSort spuLE_trans spuLE_total ((spuRows body).enum)
  have hperm : (spuSortedIdx body).Perm ((spuRows body).enum) :=
    List.mergeSort_perm _ _
  have hnd : ((spuSortedIdx body).map Prod.fst).Nodup := by
    have h1 : (((spuRows body).enum).map Prod.fst).Nodup := by
      rw [List.enum_map_fst]
      exact List.nodup_range _
    exact ((hperm.map Prod.fst).symm).nodup h1
  have hne : (spuSortedIdx body).Pairwise fun a b => a.1 ≠ b.1 :=
    List.pairwise_map.mp hnd
  refine (hs.and hne).imp ?_
  intro a b hab
  rcases hab with ⟨h1, h2⟩
  simp only [spuLE, Bool.or_eq_true, Bool.and_eq_true, decide_eq_true_eq] at h1
  omega

/-- C6: whenever a trimmed header string occurs at least twice among the
(header, body) pairs of a document, the section mapping sends it to the body
of the LAST pair carrying that header (the first match in the reversed pair
list), i.e. later occurrences overwrite earlier ones. -/
theorem C6_repeated_header_last_body_wins (raw : String) (h : List Char)
    (hrep : 2 ≤ ((sectionPairsStripped raw).filter fun p => decide (p.1 = h)).length) :
    dictGet? (split_into_sections raw) h =
      ((sectionPairsStripped raw).reverse.find? fun p => decide (p.1 = h)).map
        Prod.snd := by
  simp only [split_into_sections]
  rw [dictGet?_foldl_dictInsert]
  have hne : ((sectionPairsStripped raw).filter fun p => decide (p.1 = h)) ≠ [] := by
    intro hnil
    rw [hnil] at hrep
    simp at hrep
  rcases List.exists_cons_of_ne_nil hne with ⟨x, xs, hx⟩
  have hmem : x ∈ (sectionPairsStripped raw).filter fun p => decide (p.1 = h) := by
    rw [hx]
    exact List.mem_cons_self x xs
  have hand := List.mem_filter.mp hmem
  have hsome : ((sectionPairsStripped raw).reverse.find? fun p => decide (p.1 = h)).isSome :=
    List.find?_isSome.mpr ⟨x, List.mem_reverse.mpr hand.1, hand.2⟩
  rcases Option.isSome_iff_exists.mp hsome with ⟨q, hq⟩
  rw [hq]
  simp

/-- C6 witness: two sections with the verbatim header
"Login summary sorted by username"; the mapping holds the second body. -/
theorem C6_witness :
    2 ≤ ((sectionPairsStripped
        "Login summary sorted by username\nbob 1 2\nLogin summary sorted by username\ncarol 3 4").filter
          fun p => decide (p.1 = ("Login summary sorted by username").data)).length ∧
    dictGet? (split_into_sections
        "Login summary sorted by username\nbob 1 2\nLogin summary sorted by username\ncarol 3 4")
        (("Login summary sorted by username").data) =
      ((sectionPairsStripped
        "Login summary sorted by username\nbob 1 2\nLogin summary sorted by username\ncarol 3 4").reverse.find?
          fun p => decide (p.1 = ("Login summary sorted by username").data)).map Prod.snd :=
  ⟨by decide,
   C6_repeated_header_last_body_wins
     "Login summary sorted by username\nbob 1 2\nLogin summary sorted by username\ncarol 3 4"
     (("Login summary sorted by username").data) (by decide)⟩

/-- C7: `split_into_sections` is a total function (it never raises by
construction), and on a document none of whose lines matches a header
pattern it returns at most one entry: the "(pre-file text)" preamble entry
when the trimmed document is non-empty, the empty mapping otherwise; the
router then produces the empty dataset collection. -/
theorem C7_no_headers_preamble_only (raw : String)
    (hno : ∀ l ∈ pyLines raw.data, headerMatch l = none) :
    split_into_sections raw =
      (if (pyStrip raw.data).isEmpty then []
       else [(("(pre-file text)").data, pyStrip raw.data)]) ∧
    pipeline raw = [] := by
  have htake : (pyLines raw.data).takeWhile (fun l => (headerMatch l).isNone) =
      pyLines raw.data :=
    List.takeWhile_eq_self_iff.mpr (by intro x hx; simp [hno x hx])
  have hdrop : (pyLines raw.data).dropWhile (fun l => (headerMatch l).isNone) = [] :=
    List.dropWhile_eq_nil_iff.mpr (by intro x hx; simp [hno x hx])
  have hpairs : headerContentPairs (pyLines raw.data) = [] := by
    unfold headerContentPairs
    rw [hdrop]
  have hsp : sectionPairsStripped raw = [] := by
    unfold sectionPairsStripped
    rw [hpairs]
    rfl
  have hsplit : split_into_sections raw =
      (if (pyStrip raw.data).isEmpty then []
       else [(("(pre-file text)").data, pyStrip raw.data)]) := by
    simp only [split_into_sections]
    rw [hsp]
    simp only [List.foldl_nil]
    rw [htake, joinLines_pyLines]
  refine ⟨hsplit, ?_⟩
  unfold pipeline
  rw [hsplit]
  by_cases hp : (pyStrip raw.data).isEmpty
  · rw [if_pos hp]
    rfl
  · rw [if_neg hp]
    exact buildDatasets_single_preamble _

/-- C7 witness: a two-line document with no recognized header. -/
theorem C7_witness :
    (∀ l ∈ pyLines ("hello world\nno headers here" : String).data, headerMatch l = none) ∧
    split_into_sections "hello world\nno headers here" =
      (if (pyStrip ("hello world\nno headers here" : String).data).isEmpty then []
       else [(("(pre-file text)").data, pyStrip ("hello world\nno headers here" : String).data)]) ∧
    pipeline "hello world\nno headers here" = [] :=
  ⟨by decide,
   C7_no_headers_preamble_only "hello world\nno headers here" (by decide)⟩
